import Mathlib

/-!
# vsatlas_sync: box directory synchronisation

A shallow embedding of `vsatlas_sync.go`, `utils.go` and `structs.go`.

The program talks to the operating system, to the network and to the `grab`
download library.  Those calls are not part of the repository, so they are
collected in the record `Sys`: one field per external call, over an arbitrary
type `σ` of outside-world states.  No law is assumed about any of them, hence
every theorem below holds for every behaviour of the file system and of the
network.  `SimWorld` / `simSys` is one concrete, executable outside world
(a flat directory and a scripted remote side) used to evaluate the functions
on concrete inputs.

Go values are embedded as follows: `error` is `Option` (`none` is `nil`),
a pair of results `(v, err)` is a Lean pair, `uint64` is `Nat`, a slice is a
`List` (the `nil` slice is `[]`), the package level variable
`processedFiles` is a field of the program state `St`.  Calls of the logger
have no effect on the state and are left out.  `St.trace` is a ghost field:
it records, in order, every call that reads or changes the outside world.
-/

namespace VsatlasSync

/-! ## Data model (`structs.go`) -/

/-- Box descriptor of the inventory, `BoxInfo` of `structs.go`. -/
structure BoxInfo where
  Id : Nat
  Url : String
  Checksum : String
  ChecksumType : String
deriving DecidableEq, Repr

/-- Inventory as decoded from JSON, `AvailableBoxes` of `structs.go`. -/
structure AvailableBoxes where
  Files : List BoxInfo
deriving DecidableEq, Repr

/-! ## The outside world -/

/-- An `error` returned by the `os` / `io` packages: its text and the answer
of `os.IsNotExist` for it. -/
structure OsError where
  msg : String
  notExist : Bool
deriving DecidableEq, Repr

/-- Outcome of `grab.GetAsync` followed by waiting in the polling loop for
`resp.IsComplete()`: either `GetAsync` itself returned an error, or the
response completed and carries `resp.Error`. -/
inductive GrabResult where
  | initError (err : String)
  | complete (Error : Option String)
deriving DecidableEq, Repr

/-- What `http.Client.Get` hands back: `StatusCode`, `Status`, and the result
of `ioutil.ReadAll(resp.Body)`. -/
structure HttpResponse where
  StatusCode : Int
  Status : String
  Body : Except String String

/-- The external calls made by the program, over outside-world states `σ`. -/
structure Sys (σ : Type) where
  /-- Models `filepath.Join` for two elements. -/
  Join : String → String → String
  /-- Models `os.Open`; the result is a file handle. -/
  Open : σ → String → Except OsError Nat
  /-- Models `io.Copy(hash, file)` into a fresh `sha1` followed by `hash.Sum(nil)`. -/
  CopySha1 : σ → Nat → Except OsError (List Nat)
  /-- Models `grab.GetAsync(filename, url)` awaited until completion. -/
  GetAsync : σ → String → String → σ × GrabResult
  /-- Models `os.Remove`. -/
  Remove : σ → String → σ × Option OsError
  /-- Models `os.MkdirAll(path, 0777)`. -/
  MkdirAll : σ → String → σ × Option OsError
  /-- Models `filepath.Glob`. -/
  Glob : σ → String → Except String (List String)
  /-- Models `http.Client.Get`. -/
  HttpGet : σ → String → Except String HttpResponse
  /-- Models `json.Unmarshal` into an `AvailableBoxes`. -/
  JsonUnmarshal : String → Except String AvailableBoxes

/-- Command line flags read by the program. -/
structure Flags where
  vsatlasMasterUri : String
  localBoxFilepath : String
  concurrency : Nat

/-- Calls that read or change the outside world, and the one write to
`processedFiles`. -/
inductive Event where
  | mkdirAll (path : String)
  | httpGet (uri : String)
  | appendProcessed (filename : String)
  | validateBox (filename : String)
  | getAsync (filename url : String)
  | remove (filename : String)
  | glob (pattern : String)
deriving DecidableEq, Repr

/-- Program state: the outside world, the global `processedFiles`, and the
ghost trace of calls. -/
structure St (σ : Type) where
  world : σ
  processedFiles : List String
  trace : List Event

/-! ## `utils.go` -/

/-- Digit table of `encoding/hex`. -/
def hextable : List Char :=
  ['0', '1', '2', '3', '4', '5', '6', '7', '8', '9', 'a', 'b', 'c', 'd', 'e', 'f']

/-- Two hex digits of one byte: `hextable[v>>4]`, `hextable[v&0x0f]`. -/
def hexByte (v : Nat) : List Char :=
  [hextable.getD (v % 256 / 16) '0', hextable.getD (v % 16) '0']

/-- Models `hex.EncodeToString`. -/
def hexEncodeToString (src : List Nat) : String :=
  String.mk (src.flatMap hexByte)

/-- Models `strings.ToLower` (on the ASCII letters, which is all that the
output of `hex.EncodeToString` or a hex checksum can contain). -/
def stringsToLower (s : String) : String :=
  String.mk (s.data.map Char.toLower)

/-- `CalculateSha1` of `utils.go`: the lower-cased hex digest of the file, or
the error of opening or reading it. -/
def CalculateSha1 {σ : Type} (sys : Sys σ) (w : σ) (filePath : String) :
    String × Option OsError :=
  match sys.Open w filePath with
  | .error err => ("", some err)
  | .ok file =>
    match sys.CopySha1 w file with
    | .error err => ("", some err)
    | .ok hashInBytes => (stringsToLower (hexEncodeToString hashInBytes), none)

/-! ## `vsatlas_sync.go` -/

/-- `validateBox`: `(true, nil)` when the hash of the file is the expected
checksum, `(false, nil)` when it differs or the file does not exist, an error
for every other failure of hashing. -/
def validateBox {σ : Type} (sys : Sys σ) (w : σ) (boxinfo : BoxInfo)
    (targetFilename : String) : Bool × Option String :=
  match CalculateSha1 sys w targetFilename with
  | (_, some err) =>
    if err.notExist then (false, none)
    else (false, some ("Failed to compute hash value: " ++ err.msg ++ "\n"))
  | (hash, none) =>
    if hash = boxinfo.Checksum then (true, none) else (false, none)

/-- Models `strconv.FormatUint(id, 10)`. -/
def formatUint (id : Nat) : String := Nat.repr id

/-- Local file of a box: `filepath.Join(*localBoxFilepath, FormatUint(Id, 10))`. -/
def boxFilename {σ : Type} (sys : Sys σ) (cfg : Flags) (boxinfo : BoxInfo) : String :=
  sys.Join cfg.localBoxFilepath (formatUint boxinfo.Id)

/-- `downloadBox`.  The deferred `os.Remove(filename)` runs when the function
returns; its result is dropped, as in the source.  `resp := <-respch` and the
loop that prints the progress until `resp.IsComplete()` are folded into
`Sys.GetAsync`, which hands back the completed response. -/
def downloadBox {σ : Type} (sys : Sys σ) (cfg : Flags) (boxinfo : BoxInfo) (st : St σ) :
    Option String × St σ :=
  let filename := boxFilename sys cfg boxinfo
  let st1 : St σ :=
    { world := st.world
      processedFiles := st.processedFiles ++ [filename]
      trace := st.trace ++ [Event.appendProcessed filename, Event.validateBox filename] }
  match validateBox sys st.world boxinfo filename with
  | (_, some err) => (some ("Failed to validate checksum for file: " ++ err), st1)
  | (true, none) => (none, st1)
  | (false, none) =>
    match sys.GetAsync st.world filename boxinfo.Url with
    | (w2, .initError err) =>
      (some ("Error downloading " ++ boxinfo.Url ++ ": " ++ err ++ "\n"),
        { st1 with world := w2, trace := st1.trace ++ [Event.getAsync filename boxinfo.Url] })
    | (w2, .complete (some err)) =>
      (some ("Error downloading " ++ boxinfo.Url ++ ": " ++ err ++ "\n"),
        { st1 with world := w2, trace := st1.trace ++ [Event.getAsync filename boxinfo.Url] })
    | (w2, .complete none) =>
      let tr2 := st1.trace ++ [Event.getAsync filename boxinfo.Url, Event.validateBox filename]
      match validateBox sys w2 boxinfo filename with
      | (_, some err) =>
        (some ("Failed to validate checksum for downloaded file: " ++ err),
          { st1 with world := (sys.Remove w2 filename).1, trace := tr2 ++ [Event.remove filename] })
      | (false, none) =>
        (some "Failed to validate checksum for downloaded file: Checksum is different: %!s(<nil>)",
          { st1 with world := (sys.Remove w2 filename).1, trace := tr2 ++ [Event.remove filename] })
      | (true, none) => (none, { st1 with world := w2, trace := tr2 })

/-- `downloadIndexFile`.  On an error the returned inventory is the zero value
(the caller drops it). -/
def downloadIndexFile {σ : Type} (sys : Sys σ) (cfg : Flags) (w : σ) :
    AvailableBoxes × Option String :=
  match sys.HttpGet w cfg.vsatlasMasterUri with
  | .error err => (⟨[]⟩, some ("Failed to download index file: " ++ err))
  | .ok resp =>
    if resp.StatusCode ≥ 400 then
      (⟨[]⟩, some ("Inventory download failed: HTTP-Error: " ++ resp.Status))
    else
      match resp.Body with
      | .error err => (⟨[]⟩, some ("Reading file content failed: " ++ err))
      | .ok body =>
        match sys.JsonUnmarshal body with
        | .error err => (⟨[]⟩, some ("Invalid JSON content: " ++ err))
        | .ok boxes => (boxes, none)

/-- `stringInSlice`. -/
def stringInSlice (str : String) : List String → Bool
  | [] => false
  | v :: list => if v = str then true else stringInSlice str list

/-- First loop of `cleanupBoxDirectory`: walks `files`, appending to
`obsoleteFiles` every entry that is not in `processedFiles`. -/
def markObsolete (processedFiles : List String) : List String → List String → List String
  | [], obsoleteFiles => obsoleteFiles
  | existingFile :: files, obsoleteFiles =>
    if stringInSlice existingFile processedFiles then
      markObsolete processedFiles files obsoleteFiles
    else
      markObsolete processedFiles files (obsoleteFiles ++ [existingFile])

/-- Second loop of `cleanupBoxDirectory`: calls `os.Remove` on every obsolete
file and appends `"<file>: <err>"` to `errorStack` for every failure.  The
result is the outside world, the calls made, and `errorStack`. -/
def removeObsolete {σ : Type} (sys : Sys σ) :
    List String → σ → List Event → List String → σ × List Event × List String
  | [], w, tr, errorStack => (w, tr, errorStack)
  | existingFile :: obsoleteFiles, w, tr, errorStack =>
    match sys.Remove w existingFile with
    | (w2, some err) =>
      removeObsolete sys obsoleteFiles w2 (tr ++ [Event.remove existingFile])
        (errorStack ++ [existingFile ++ ": " ++ err.msg])
    | (w2, none) =>
      removeObsolete sys obsoleteFiles w2 (tr ++ [Event.remove existingFile]) errorStack

/-- Pattern handed to `filepath.Glob` by `cleanupBoxDirectory`. -/
def globPattern (cfg : Flags) : String := cfg.localBoxFilepath ++ "\\*"

/-- `cleanupBoxDirectory`. -/
def cleanupBoxDirectory {σ : Type} (sys : Sys σ) (cfg : Flags) (st : St σ) :
    Option String × St σ :=
  let st1 : St σ := { st with trace := st.trace ++ [Event.glob (globPattern cfg)] }
  match sys.Glob st.world (globPattern cfg) with
  | .error err =>
    (some ("Listing directory content failed: " ++ cfg.localBoxFilepath ++ ": " ++ err ++ "\n"),
      st1)
  | .ok files =>
    if files.isEmpty then (none, st1)
    else
      let obsoleteFiles := markObsolete st.processedFiles files []
      match removeObsolete sys obsoleteFiles st.world st1.trace [] with
      | (w2, tr2, errorStack) =>
        let st2 : St σ := { st1 with world := w2, trace := tr2 }
        if errorStack.length > 0 then (some (", ".intercalate errorStack), st2)
        else (none, st2)

/-- The dispatch loop of `main` in the schedule in which the units run one
after the other in inventory order (the schedule of `-concurrency 1`).  The
error of a unit is only logged. -/
def downloadAll {σ : Type} (sys : Sys σ) (cfg : Flags) : List BoxInfo → St σ → St σ
  | [], st => st
  | f :: files, st => downloadAll sys cfg files (downloadBox sys cfg f st).2

/-- `main`: the exit code passed to `os.Exit` and the final state. -/
def main {σ : Type} (sys : Sys σ) (cfg : Flags) (w : σ) : Nat × St σ :=
  match sys.MkdirAll w cfg.localBoxFilepath with
  | (w1, some _) =>
    (1, { world := w1, processedFiles := [], trace := [Event.mkdirAll cfg.localBoxFilepath] })
  | (w1, none) =>
    let st1 : St σ :=
      { world := w1
        processedFiles := []
        trace := [Event.mkdirAll cfg.localBoxFilepath, Event.httpGet cfg.vsatlasMasterUri] }
    match downloadIndexFile sys cfg w1 with
    | (_, some _) => (1, st1)
    | (boxes, none) =>
      match cleanupBoxDirectory sys cfg (downloadAll sys cfg boxes.Files st1) with
      | (some _, st3) => (1, st3)
      | (none, st3) => (0, st3)

/-! ## The dispatch loop of `main` as a transition system

`sem := make(chan bool, *concurrency)` is a buffered channel: a send completes
only while fewer than `cap(sem)` tokens are buffered, a receive only while a
token is buffered.  The state counts tokens and units; a step is one channel
operation or one `go` statement. -/

/-- State of the dispatch loop and of the barrier loop. -/
structure SemState where
  /-- Descriptors of `boxes.Files` not yet reached by the `range` loop. -/
  pending : Nat
  /-- The loop body has sent its token and has not yet run `go func`. -/
  starting : Bool
  /-- Tokens buffered in `sem`. -/
  sem : Nat
  /-- Units started by `go func` whose deferred `<-sem` has not run yet. -/
  running : Nat
  /-- Units whose deferred `<-sem` has run. -/
  finished : Nat
  /-- Counter `i` of the final loop. -/
  barrier : Nat
  /-- The final loop was left and `cleanupBoxDirectory` called. -/
  cleanup : Bool
deriving DecidableEq, Repr

/-- Steps of the transition system. -/
inductive SemAction where
  | send
  | spawn
  | finish
  | barrierSend
  | startCleanup
deriving DecidableEq, Repr

/-- State on entry of the dispatch loop, for an inventory of `n` descriptors. -/
def semInit (n : Nat) : SemState :=
  { pending := n, starting := false, sem := 0, running := 0, finished := 0,
    barrier := 0, cleanup := false }

/-- One step; `none` when the step is blocked or not the next statement.
`W` is `cap(sem)`. -/
def semStep (W : Nat) (s : SemState) : SemAction → Option SemState
  | .send =>
    if 0 < s.pending ∧ s.starting = false ∧ s.sem < W then
      some { s with sem := s.sem + 1, starting := true }
    else none
  | .spawn =>
    if s.starting = true then
      some { s with starting := false, pending := s.pending - 1, running := s.running + 1 }
    else none
  | .finish =>
    if 0 < s.running ∧ 0 < s.sem then
      some { s with sem := s.sem - 1, running := s.running - 1, finished := s.finished + 1 }
    else none
  | .barrierSend =>
    if s.pending = 0 ∧ s.starting = false ∧ s.cleanup = false ∧ s.barrier < W ∧ s.sem < W then
      some { s with sem := s.sem + 1, barrier := s.barrier + 1 }
    else none
  | .startCleanup =>
    if s.pending = 0 ∧ s.starting = false ∧ s.cleanup = false ∧ W ≤ s.barrier then
      some { s with cleanup := true }
    else none

/-- Runs a sequence of steps; `none` as soon as one of them is not enabled. -/
def semRun (W : Nat) : SemState → List SemAction → Option SemState
  | s, [] => some s
  | s, a :: as => (semStep W s a).bind fun s2 => semRun W s2 as

/-! ## A concrete outside world

One flat directory on a Windows file system and a scripted remote side. -/

/-- File of the simulated directory: the SHA-1 digest of its content, whether
it can be read, and whether `os.Remove` is refused for it. -/
structure SimFile where
  sha1 : List Nat
  readable : Bool
  locked : Bool
deriving DecidableEq, Repr

/-- Simulated world: the directories that exist, the files by full path, the
boxes served by the remote side (digest of the content by URL), and the
answer of the inventory request. -/
structure SimWorld where
  dirs : List String
  files : List (String × SimFile)
  remote : List (String × List Nat)
  indexStatus : Int
  indexBody : String
deriving DecidableEq, Repr

/-- Tests whether the list `p` starts with the list `q`. -/
def startsWith : List Char → List Char → Bool
  | _, [] => true
  | [], _ :: _ => false
  | a :: p, b :: q => a == b && startsWith p q

/-- Simulated `os.Remove`. -/
def simRemove (w : SimWorld) (path : String) : SimWorld × Option OsError :=
  match w.files.lookup path with
  | none => (w, some ⟨"remove " ++ path ++ ": The system cannot find the file specified.", true⟩)
  | some f =>
    if f.locked then (w, some ⟨"remove " ++ path ++ ": Access is denied.", false⟩)
    else ({ w with files := w.files.filter fun e => e.1 != path }, none)

/-- Simulated `grab.GetAsync`: stores the served content under `filename`. -/
def simGetAsync (w : SimWorld) (filename url : String) : SimWorld × GrabResult :=
  match w.remote.lookup url with
  | none => (w, .complete (some "server returned 404 Not Found"))
  | some digest =>
    ({ w with files := (filename, ⟨digest, true, false⟩) :: w.files.filter fun e => e.1 != filename },
      .complete none)

/-- The simulated outside world; `decoded` is what the inventory body decodes to. -/
def simSys (decoded : AvailableBoxes) : Sys SimWorld where
  Join dir name := dir ++ "\\" ++ name
  Open w path :=
    match (w.files.map Prod.fst).indexOf? path with
    | none => .error ⟨"open " ++ path ++ ": The system cannot find the file specified.", true⟩
    | some fd => .ok fd
  CopySha1 w fd :=
    match w.files.get? fd with
    | none => .error ⟨"read: file already closed", false⟩
    | some (path, f) =>
      if f.readable then .ok f.sha1 else .error ⟨"read " ++ path ++ ": Access is denied.", false⟩
  GetAsync := simGetAsync
  Remove := simRemove
  MkdirAll w path := (if path ∈ w.dirs then w else { w with dirs := path :: w.dirs }, none)
  Glob w pattern :=
    .ok ((w.files.map Prod.fst).filter fun path =>
      pattern.data.getLast? == some '*' && startsWith path.data pattern.data.dropLast)
  HttpGet w _ :=
    .ok { StatusCode := w.indexStatus, Status := toString w.indexStatus, Body := .ok w.indexBody }
  JsonUnmarshal body :=
    if body = "" then .error "unexpected end of JSON input" else .ok decoded

/-- SHA-1 digest of the empty content, `da39a3ee5e6b4b0d3255bfef95601890afd80709`. -/
def sha1Empty : List Nat :=
  [0xda, 0x39, 0xa3, 0xee, 0x5e, 0x6b, 0x4b, 0x0d, 0x32, 0x55,
   0xbf, 0xef, 0x95, 0x60, 0x18, 0x90, 0xaf, 0xd8, 0x07, 0x09]

/-- SHA-1 digest of the content `abc`, `a9993e364706816aba3e25717850c26c9cd0d89d`. -/
def sha1Abc : List Nat :=
  [0xa9, 0x99, 0x3e, 0x36, 0x47, 0x06, 0x81, 0x6a, 0xba, 0x3e,
   0x25, 0x71, 0x78, 0x50, 0xc2, 0x6c, 0x9c, 0xd0, 0xd8, 0x9d]

/-! ## Specification-side definitions -/

/-- Results of the individual deletions when `os.Remove` is called on the
given files one after the other, starting in world `w`: each file with the
error of its deletion (`none` when it succeeded). -/
def removeResults {σ : Type} (sys : Sys σ) : List String → σ → List (String × Option OsError)
  | [], _ => []
  | f :: fs, w => (f, (sys.Remove w f).2) :: removeResults sys fs (sys.Remove w f).1

/-- Entry of the aggregated error for one deletion: `"<path>: <cause>"` for a
failed one, nothing for a successful one. -/
def failureEntry (r : String × Option OsError) : Option String :=
  r.2.map fun err => r.1 ++ ": " ++ err.msg

/-- Events that a unit adds to the trace when its file is already valid. -/
def upToDateEvents {σ : Type} (sys : Sys σ) (cfg : Flags) (b : BoxInfo) : List Event :=
  [Event.appendProcessed (boxFilename sys cfg b), Event.validateBox (boxFilename sys cfg b)]

/-- Tells whether an event is a transfer or a deletion. -/
def Event.isTransferOrRemove : Event → Bool
  | .getAsync _ _ => true
  | .remove _ => true
  | _ => false

/-- Tells whether an event is the append to `processedFiles`. -/
def Event.isAppend : Event → Bool
  | .appendProcessed _ => true
  | _ => false

/-- Invariant of the dispatch loop for capacity `W` and `n` descriptors. -/
def SemInv (W n : Nat) (s : SemState) : Prop :=
  s.sem = s.running + (if s.starting then 1 else 0) + s.barrier ∧
  s.sem ≤ W ∧
  s.pending + s.running + s.finished = n ∧
  (s.starting = true → 0 < s.pending) ∧
  (s.cleanup = true → s.pending = 0 ∧ s.starting = false ∧ W ≤ s.barrier)

/-! ## Concrete inputs -/

/-- Target directory used in the examples. -/
def exDir : String := "d:\\localrepo"

/-- Flags used in the examples. -/
def exFlags : Flags :=
  { vsatlasMasterUri := "http://atlas/boxindex/", localBoxFilepath := exDir, concurrency := 5 }

/-- Box 1 with the checksum of the empty content spelled in upper case. -/
def upperBox : BoxInfo :=
  { Id := 1, Url := "http://x/1.box", Checksum := "DA39A3EE5E6B4B0D3255BFEF95601890AFD80709",
    ChecksumType := "sha1" }

/-- Box 1 with the checksum of the empty content spelled in lower case. -/
def lowerBox : BoxInfo :=
  { Id := 1, Url := "http://x/1.box", Checksum := "da39a3ee5e6b4b0d3255bfef95601890afd80709",
    ChecksumType := "sha1" }

/-- World whose target directory holds file `1` with empty content. -/
def syncedWorld : SimWorld :=
  { dirs := [exDir], files := [("d:\\localrepo\\1", ⟨sha1Empty, true, false⟩)], remote := [],
    indexStatus := 200, indexBody := "x" }

/-- The set difference of the specification, `obsolete = entries − touchedSet`,
by string equality and in the order of the listing. -/
def obsoleteEntries (entries touched : List String) : List String :=
  entries.filter fun f => decide (f ∉ touched)

/-- World whose target directory holds file `1` with empty content and the
untracked file `999`. -/
def untrackedWorld : SimWorld :=
  { dirs := [exDir]
    files := [("d:\\localrepo\\1", ⟨sha1Empty, true, false⟩),
              ("d:\\localrepo\\999", ⟨sha1Abc, true, false⟩)]
    remote := [], indexStatus := 200, indexBody := "x" }

/-- World whose target directory holds the untracked files `7` (can be
removed), `8` (removal refused) and `9` (removal refused). -/
def lockedWorld : SimWorld :=
  { dirs := [exDir]
    files := [("d:\\localrepo\\7", ⟨sha1Abc, true, false⟩),
              ("d:\\localrepo\\8", ⟨sha1Abc, true, true⟩),
              ("d:\\localrepo\\9", ⟨sha1Empty, true, true⟩)]
    remote := [], indexStatus := 200, indexBody := "x" }

/-- World with an empty target directory whose remote side serves the empty
content for box 1 (its digest is the checksum of `lowerBox`). -/
def emptyDirWorld : SimWorld :=
  { dirs := [exDir], files := [], remote := [("http://x/1.box", sha1Empty)],
    indexStatus := 200, indexBody := "x" }

/-- World with an empty target directory whose remote side serves the content
`abc` for box 1 (its digest differs from the checksum of `lowerBox`). -/
def corruptRemoteWorld : SimWorld :=
  { dirs := [exDir], files := [], remote := [("http://x/1.box", sha1Abc)],
    indexStatus := 200, indexBody := "x" }

/-- World without the target directory whose inventory request is answered
with status 404. -/
def freshWorld : SimWorld :=
  { dirs := [], files := [], remote := [], indexStatus := 404, indexBody := "" }

/-! ## Auxiliary lemmas -/

section Lemmas

variable {σ : Type}

lemma toLower_hextable (n : Nat) :
    Char.toLower (hextable.getD n '0') = hextable.getD n '0' := by
  match n with
  | 0 | 1 | 2 | 3 | 4 | 5 | 6 | 7 | 8 | 9 | 10 | 11 | 12 | 13 | 14 | 15 => rfl
  | _ + 16 => rfl

lemma toLower_hexEncode (src : List Nat) :
    stringsToLower (hexEncodeToString src) = hexEncodeToString src := by
  unfold stringsToLower hexEncodeToString
  congr 1
  induction src with
  | nil => rfl
  | cons v vs ih =>
    have hb : (hexByte v).map Char.toLower = hexByte v := by
      simp only [hexByte, List.map_cons, List.map_nil, toLower_hextable]
    simpa only [List.flatMap_cons, List.map_append, hb] using congrArg (hexByte v ++ ·) ih

lemma calculateSha1_cases (sys : Sys σ) (w : σ) (p : String) :
    (∃ err, CalculateSha1 sys w p = ("", some err)) ∨
    (∃ fd bytes, sys.Open w p = .ok fd ∧ sys.CopySha1 w fd = .ok bytes ∧
      CalculateSha1 sys w p = (hexEncodeToString bytes, none)) := by
  cases hO : sys.Open w p with
  | error e => exact Or.inl ⟨e, by simp only [CalculateSha1, hO]⟩
  | ok fd =>
    cases hC : sys.CopySha1 w fd with
    | error e => exact Or.inl ⟨e, by simp only [CalculateSha1, hO, hC]⟩
    | ok bytes =>
      exact Or.inr ⟨fd, bytes, rfl, hC, by simp only [CalculateSha1, hO, hC, toLower_hexEncode]⟩

lemma validateBox_of_hash (sys : Sys σ) (w : σ) (b : BoxInfo) (p h : String)
    (hh : CalculateSha1 sys w p = (h, none)) :
    validateBox sys w b p = (decide (h = b.Checksum), none) := by
  unfold validateBox
  rw [hh]
  by_cases hc : h = b.Checksum <;> simp [hc]

lemma validateBox_of_error (sys : Sys σ) (w : σ) (b : BoxInfo) (p h : String) (err : OsError)
    (hh : CalculateSha1 sys w p = (h, some err)) :
    validateBox sys w b p =
      if err.notExist then (false, none)
      else (false, some ("Failed to compute hash value: " ++ err.msg ++ "\n")) := by
  unfold validateBox
  rw [hh]

lemma validateBox_true_iff (sys : Sys σ) (w : σ) (b : BoxInfo) (p : String) :
    validateBox sys w b p = (true, none) ↔ CalculateSha1 sys w p = (b.Checksum, none) := by
  rcases hc : CalculateSha1 sys w p with ⟨h, _ | err⟩
  · rw [validateBox_of_hash sys w b p h hc]
    by_cases hx : h = b.Checksum <;> simp [hx]
  · rw [validateBox_of_error sys w b p h err hc]
    by_cases hn : err.notExist = true <;> simp [hn]

lemma stringInSlice_iff (str : String) (list : List String) :
    stringInSlice str list = true ↔ str ∈ list := by
  induction list with
  | nil => simp [stringInSlice]
  | cons v vs ih =>
    by_cases hv : v = str
    · simp [stringInSlice, hv]
    · have hv2 : ¬ str = v := fun h => hv h.symm
      simp [stringInSlice, hv, hv2, ih]

lemma markObsolete_eq (processedFiles files acc : List String) :
    markObsolete processedFiles files acc =
      acc ++ files.filter fun f => decide (f ∉ processedFiles) := by
  induction files generalizing acc with
  | nil => simp [markObsolete]
  | cons f fs ih =>
    by_cases hf : f ∈ processedFiles
    · simp [markObsolete, (stringInSlice_iff f processedFiles).2 hf, ih, hf]
    · have hs : ¬ stringInSlice f processedFiles = true :=
        fun h => hf ((stringInSlice_iff f processedFiles).1 h)
      simp [markObsolete, hs, ih, hf]

lemma removeObsolete_trace (sys : Sys σ) (obs : List String) (w : σ) (tr : List Event)
    (es : List String) :
    (removeObsolete sys obs w tr es).2.1 = tr ++ obs.map Event.remove := by
  induction obs generalizing w tr es with
  | nil => simp [removeObsolete]
  | cons f fs ih =>
    rcases hr : sys.Remove w f with ⟨w2, _ | err⟩ <;> simp [removeObsolete, hr, ih]

lemma removeObsolete_errorStack (sys : Sys σ) (obs : List String) (w : σ) (tr : List Event)
    (es : List String) :
    (removeObsolete sys obs w tr es).2.2 =
      es ++ (removeResults sys obs w).filterMap failureEntry := by
  induction obs generalizing w tr es with
  | nil => simp [removeObsolete, removeResults]
  | cons f fs ih =>
    rcases hr : sys.Remove w f with ⟨w2, _ | err⟩ <;>
      simp [removeObsolete, removeResults, hr, ih, failureEntry]

lemma removeResults_fst (sys : Sys σ) (obs : List String) (w : σ) :
    (removeResults sys obs w).map Prod.fst = obs := by
  induction obs generalizing w with
  | nil => rfl
  | cons f fs ih => simp [removeResults, ih]

lemma downloadBox_processedFiles (sys : Sys σ) (cfg : Flags) (b : BoxInfo) (st : St σ) :
    (downloadBox sys cfg b st).2.processedFiles =
      st.processedFiles ++ [boxFilename sys cfg b] := by
  unfold downloadBox
  dsimp only
  split
  · rfl
  · rfl
  · split
    · rfl
    · rfl
    · split <;> rfl

lemma downloadBox_trace (sys : Sys σ) (cfg : Flags) (b : BoxInfo) (st : St σ) :
    ∃ rest, (downloadBox sys cfg b st).2.trace =
        st.trace ++ Event.appendProcessed (boxFilename sys cfg b) ::
          Event.validateBox (boxFilename sys cfg b) :: rest ∧
      ∀ e ∈ rest, e.isAppend = false := by
  unfold downloadBox
  dsimp only
  split
  · exact ⟨[], by simp, by simp⟩
  · exact ⟨[], by simp, by simp⟩
  · split
    · exact ⟨[Event.getAsync (boxFilename sys cfg b) b.Url], by simp, by simp [Event.isAppend]⟩
    · exact ⟨[Event.getAsync (boxFilename sys cfg b) b.Url], by simp, by simp [Event.isAppend]⟩
    · split
      · exact ⟨[Event.getAsync (boxFilename sys cfg b) b.Url,
          Event.validateBox (boxFilename sys cfg b), Event.remove (boxFilename sys cfg b)],
          by simp, by simp [Event.isAppend]⟩
      · exact ⟨[Event.getAsync (boxFilename sys cfg b) b.Url,
          Event.validateBox (boxFilename sys cfg b), Event.remove (boxFilename sys cfg b)],
          by simp, by simp [Event.isAppend]⟩
      · exact ⟨[Event.getAsync (boxFilename sys cfg b) b.Url,
          Event.validateBox (boxFilename sys cfg b)], by simp, by simp [Event.isAppend]⟩

lemma downloadAll_processedFiles (sys : Sys σ) (cfg : Flags) (boxes : List BoxInfo) (st : St σ) :
    (downloadAll sys cfg boxes st).processedFiles =
      st.processedFiles ++ boxes.map (boxFilename sys cfg) := by
  induction boxes generalizing st with
  | nil => simp [downloadAll]
  | cons b bs ih => simp [downloadAll, ih, downloadBox_processedFiles]

lemma cleanup_trace (sys : Sys σ) (cfg : Flags) (st : St σ) (files : List String)
    (hglob : sys.Glob st.world (globPattern cfg) = .ok files) :
    (cleanupBoxDirectory sys cfg st).2.trace =
      st.trace ++ Event.glob (globPattern cfg) ::
        (markObsolete st.processedFiles files []).map Event.remove := by
  unfold cleanupBoxDirectory
  simp only [hglob]
  cases files with
  | nil => simp [markObsolete]
  | cons f fs =>
    simp only [List.isEmpty_cons, Bool.false_eq_true, if_false]
    have ht := removeObsolete_trace sys (markObsolete st.processedFiles (f :: fs) []) st.world
      (st.trace ++ [Event.glob (globPattern cfg)]) []
    split <;> simp [ht]

lemma cleanup_processedFiles (sys : Sys σ) (cfg : Flags) (st : St σ) :
    (cleanupBoxDirectory sys cfg st).2.processedFiles = st.processedFiles := by
  unfold cleanupBoxDirectory
  dsimp only
  split
  · rfl
  · split
    · rfl
    · split <;> rfl

lemma downloadBox_upToDate (sys : Sys σ) (cfg : Flags) (b : BoxInfo) (st : St σ)
    (hv : validateBox sys st.world b (boxFilename sys cfg b) = (true, none)) :
    downloadBox sys cfg b st =
      (none, ⟨st.world, st.processedFiles ++ [boxFilename sys cfg b],
        st.trace ++ upToDateEvents sys cfg b⟩) := by
  simp only [downloadBox, hv, upToDateEvents]

lemma downloadBox_downloaded (sys : Sys σ) (cfg : Flags) (b : BoxInfo) (st : St σ) (w2 : σ)
    (hv : validateBox sys st.world b (boxFilename sys cfg b) = (false, none))
    (hg : sys.GetAsync st.world (boxFilename sys cfg b) b.Url = (w2, .complete none))
    (hv2 : validateBox sys w2 b (boxFilename sys cfg b) = (true, none)) :
    downloadBox sys cfg b st =
      (none, ⟨w2, st.processedFiles ++ [boxFilename sys cfg b],
        st.trace ++ upToDateEvents sys cfg b ++
          [Event.getAsync (boxFilename sys cfg b) b.Url,
            Event.validateBox (boxFilename sys cfg b)]⟩) := by
  simp only [downloadBox, hv, hg, hv2, upToDateEvents]

lemma downloadBox_mismatch (sys : Sys σ) (cfg : Flags) (b : BoxInfo) (st : St σ) (w2 : σ)
    (hv : validateBox sys st.world b (boxFilename sys cfg b) = (false, none))
    (hg : sys.GetAsync st.world (boxFilename sys cfg b) b.Url = (w2, .complete none))
    (hv2 : validateBox sys w2 b (boxFilename sys cfg b) = (false, none)) :
    downloadBox sys cfg b st =
      (some "Failed to validate checksum for downloaded file: Checksum is different: %!s(<nil>)",
        ⟨(sys.Remove w2 (boxFilename sys cfg b)).1, st.processedFiles ++ [boxFilename sys cfg b],
          st.trace ++ upToDateEvents sys cfg b ++
            [Event.getAsync (boxFilename sys cfg b) b.Url,
              Event.validateBox (boxFilename sys cfg b)] ++
            [Event.remove (boxFilename sys cfg b)]⟩) := by
  simp only [downloadBox, hv, hg, hv2, upToDateEvents]

lemma downloadBox_none_cases (sys : Sys σ) (cfg : Flags) (b : BoxInfo) (st : St σ) :
    (downloadBox sys cfg b st).1 = none →
      (validateBox sys st.world b (boxFilename sys cfg b) = (true, none) ∧
        (downloadBox sys cfg b st).2.world = st.world) ∨
      (∃ w2, validateBox sys st.world b (boxFilename sys cfg b) = (false, none) ∧
        sys.GetAsync st.world (boxFilename sys cfg b) b.Url = (w2, .complete none) ∧
        validateBox sys w2 b (boxFilename sys cfg b) = (true, none) ∧
        (downloadBox sys cfg b st).2.world = w2) := by
  unfold downloadBox
  dsimp only
  split
  · intro h; simp at h
  · rename_i hv; intro _; exact Or.inl ⟨hv, rfl⟩
  · rename_i hv
    split
    · intro h; simp at h
    · intro h; simp at h
    · rename_i w2 hg
      split
      · intro h; simp at h
      · intro h; simp at h
      · rename_i hv2; intro _; exact Or.inr ⟨w2, hv, hg, hv2, rfl⟩

lemma semInv_init (W n : Nat) : SemInv W n (semInit n) := by
  simp [SemInv, semInit]

lemma semInv_step (W n : Nat) (s s2 : SemState) (a : SemAction) (h : SemInv W n s)
    (hs : semStep W s a = some s2) : SemInv W n s2 := by
  obtain ⟨h1, h2, h3, h4, h5⟩ := h
  cases hst : s.starting <;> cases hcl : s.cleanup <;> cases a <;>
    simp only [semStep, hst, hcl] at hs <;> split at hs <;> cases hs <;>
    simp only [hst, hcl] at h1 h4 h5 <;>
    simp only [SemInv, hst, hcl] <;>
    simp at * <;> omega

lemma semInv_run (W n : Nat) (acts : List SemAction) (s s2 : SemState) (h : SemInv W n s)
    (hr : semRun W s acts = some s2) : SemInv W n s2 := by
  induction acts generalizing s with
  | nil =>
    simp only [semRun, Option.some.injEq] at hr
    exact hr ▸ h
  | cons a as ih =>
    simp only [semRun] at hr
    cases hstep : semStep W s a with
    | none => simp [hstep] at hr
    | some s1 =>
      rw [hstep] at hr
      exact ih s1 (semInv_step W n s s1 a h hstep) hr

end Lemmas

/-! ## Theorems -/

/-- C7. `validateBox` classifies the result of hashing: an error for which
`os.IsNotExist` holds gives `(false, nil)`; every other error gives a non-nil
error; a successful hash gives `(true, nil)` exactly when the hash equals the
expected checksum and `(false, nil)` otherwise.  The returned error is non-nil
if and only if hashing failed with an error other than absence. -/
theorem validateBox_classification {σ : Type} (sys : Sys σ) (w : σ) (boxinfo : BoxInfo)
    (path : String) :
    (∀ err, (CalculateSha1 sys w path).2 = some err → err.notExist = true →
      validateBox sys w boxinfo path = (false, none)) ∧
    (∀ err, (CalculateSha1 sys w path).2 = some err → err.notExist = false →
      ∃ msg, validateBox sys w boxinfo path = (false, some msg)) ∧
    ((CalculateSha1 sys w path).2 = none →
      ((CalculateSha1 sys w path).1 = boxinfo.Checksum →
        validateBox sys w boxinfo path = (true, none)) ∧
      ((CalculateSha1 sys w path).1 ≠ boxinfo.Checksum →
        validateBox sys w boxinfo path = (false, none))) ∧
    ((validateBox sys w boxinfo path).2 ≠ none ↔
      ∃ err, (CalculateSha1 sys w path).2 = some err ∧ err.notExist = false) := by
  rcases hc : CalculateSha1 sys w path with ⟨h, _ | err⟩
  · rw [validateBox_of_hash sys w boxinfo path h hc]
    refine ⟨by simp, by simp, fun _ => ⟨fun hx => by simp_all, fun hx => by simp_all⟩, by simp⟩
  · rw [validateBox_of_error sys w boxinfo path h err hc]
    by_cases hn : err.notExist = true
    · simp [hn]
    · simp [hn]

/-- C4 (as stated, refuted). File `1` exists and hashes to
`da39a3ee…0709`; the expected checksum is the upper-case spelling of that
digest, so it equals the digest up to letter case; `validateBox` nevertheless
returns `(false, nil)`. -/
theorem validateBox_rejects_upper_case_checksum :
    CalculateSha1 (simSys ⟨[upperBox]⟩) syncedWorld "d:\\localrepo\\1" =
      ("da39a3ee5e6b4b0d3255bfef95601890afd80709", none) ∧
    stringsToLower upperBox.Checksum = "da39a3ee5e6b4b0d3255bfef95601890afd80709" ∧
    validateBox (simSys ⟨[upperBox]⟩) syncedWorld upperBox "d:\\localrepo\\1" = (false, none) := by
  decide

/-- C4 (amended). `validateBox` compares by exact string equality with the
lower-case hex spelling that `CalculateSha1` produces: when hashing succeeds
with hash `h`, then `h` is already lower case, `validateBox` returns
`(true, nil)` exactly when the expected checksum is identical to `h`, and it
returns `(false, nil)` for every other checksum, also for one that equals `h`
up to letter case. -/
theorem validateBox_exact_lower_case_match {σ : Type} (sys : Sys σ) (w : σ) (boxinfo : BoxInfo)
    (path h : String) (hh : CalculateSha1 sys w path = (h, none)) :
    stringsToLower h = h ∧
    (validateBox sys w boxinfo path = (true, none) ↔ boxinfo.Checksum = h) ∧
    (boxinfo.Checksum ≠ h → validateBox sys w boxinfo path = (false, none)) := by
  refine ⟨?_, ?_, ?_⟩
  · rcases calculateSha1_cases sys w path with ⟨err, he⟩ | ⟨fd, bytes, _, _, hb⟩
    · rw [he] at hh; cases hh
    · rw [hb] at hh
      cases hh
      exact toLower_hexEncode bytes
  · rw [validateBox_true_iff, hh]
    constructor
    · intro hx; cases hx; rfl
    · intro hx; rw [hx]
  · intro hne
    rw [validateBox_of_hash sys w boxinfo path h hh]
    have : ¬ h = boxinfo.Checksum := fun hx => hne hx.symm
    simp [this]

/-- Witness for C4 (amended): file `1` with empty content and the upper-case
checksum. -/
theorem validateBox_exact_lower_case_match_witness :
    CalculateSha1 (simSys ⟨[upperBox]⟩) syncedWorld "d:\\localrepo\\1" =
      ("da39a3ee5e6b4b0d3255bfef95601890afd80709", none) ∧
    (validateBox (simSys ⟨[upperBox]⟩) syncedWorld upperBox "d:\\localrepo\\1" = (true, none) ↔
      upperBox.Checksum = "da39a3ee5e6b4b0d3255bfef95601890afd80709") :=
  ⟨by decide,
   (validateBox_exact_lower_case_match (simSys ⟨[upperBox]⟩) syncedWorld upperBox
      "d:\\localrepo\\1" "da39a3ee5e6b4b0d3255bfef95601890afd80709" (by decide)).2.1⟩

/-- C1. When the listing of the target directory is `files`,
`cleanupBoxDirectory` calls `os.Remove` exactly on
`obsoleteEntries files processedFiles`, in the order of the listing: a path
is passed to the delete operation if and only if it is an entry of `files`
that is not a member of `processedFiles`.  In particular, after the units of
a catalog have run, whatever their outcome, the file of no box of the
catalog is passed to the delete operation. -/
theorem cleanup_deletes_exactly_untouched {σ : Type} (sys : Sys σ) (cfg : Flags) (st : St σ)
    (files : List String) (hglob : sys.Glob st.world (globPattern cfg) = .ok files) :
    (cleanupBoxDirectory sys cfg st).2.trace =
      st.trace ++ Event.glob (globPattern cfg) ::
        (obsoleteEntries files st.processedFiles).map Event.remove ∧
    (∀ f, f ∈ obsoleteEntries files st.processedFiles ↔ f ∈ files ∧ f ∉ st.processedFiles) ∧
    (∀ (boxes : List BoxInfo) (st0 : St σ), st = downloadAll sys cfg boxes st0 →
      ∀ b ∈ boxes, boxFilename sys cfg b ∉ obsoleteEntries files st.processedFiles) := by
  refine ⟨?_, ?_, ?_⟩
  · rw [cleanup_trace sys cfg st files hglob, markObsolete_eq]
    rfl
  · intro f
    simp [obsoleteEntries]
  · intro boxes st0 hst b hb
    have hmem : boxFilename sys cfg b ∈ st.processedFiles := by
      rw [hst, downloadAll_processedFiles]
      exact List.mem_append_right _ (List.mem_map_of_mem _ hb)
    simp [obsoleteEntries, hmem]

/-- Witness for C1: the directory holds `1` (in the catalog) and `999` (not
in the catalog); only `999` is passed to `os.Remove`. -/
theorem cleanup_deletes_exactly_untouched_witness :
    (simSys ⟨[lowerBox]⟩).Glob
        (downloadAll (simSys ⟨[lowerBox]⟩) exFlags [lowerBox] ⟨untrackedWorld, [], []⟩).world
        (globPattern exFlags) = .ok ["d:\\localrepo\\1", "d:\\localrepo\\999"] ∧
    (cleanupBoxDirectory (simSys ⟨[lowerBox]⟩) exFlags
        (downloadAll (simSys ⟨[lowerBox]⟩) exFlags [lowerBox] ⟨untrackedWorld, [], []⟩)).2.trace =
      [Event.appendProcessed "d:\\localrepo\\1", Event.validateBox "d:\\localrepo\\1",
        Event.glob "d:\\localrepo\\*", Event.remove "d:\\localrepo\\999"] :=
  ⟨by rfl,
   (cleanup_deletes_exactly_untouched (simSys ⟨[lowerBox]⟩) exFlags
      (downloadAll (simSys ⟨[lowerBox]⟩) exFlags [lowerBox] ⟨untrackedWorld, [], []⟩)
      ["d:\\localrepo\\1", "d:\\localrepo\\999"] (by rfl)).1.trans (by decide)⟩

/-- C6. With `obsolete` the entries marked for deletion and `results` the
outcome of each individual `os.Remove`: `cleanupBoxDirectory` calls
`os.Remove` on every obsolete entry, in order, whether or not earlier
deletions failed; it returns a non-nil error if and only if at least one
deletion failed; and that error is the `", "`-joined list holding one entry
`"<path>: <cause>"` for each failed deletion and nothing for a successful
one. -/
theorem cleanup_aggregates_failures {σ : Type} (sys : Sys σ) (cfg : Flags) (st : St σ)
    (files : List String) (hglob : sys.Glob st.world (globPattern cfg) = .ok files) :
    (cleanupBoxDirectory sys cfg st).2.trace =
      st.trace ++ Event.glob (globPattern cfg) ::
        (markObsolete st.processedFiles files []).map Event.remove ∧
    (removeResults sys (markObsolete st.processedFiles files []) st.world).map Prod.fst =
      markObsolete st.processedFiles files [] ∧
    ((cleanupBoxDirectory sys cfg st).1 ≠ none ↔
      ∃ r ∈ removeResults sys (markObsolete st.processedFiles files []) st.world, r.2 ≠ none) ∧
    ((∃ r ∈ removeResults sys (markObsolete st.processedFiles files []) st.world, r.2 ≠ none) →
      (cleanupBoxDirectory sys cfg st).1 = some (", ".intercalate
        ((removeResults sys (markObsolete st.processedFiles files []) st.world).filterMap
          failureEntry))) := by
  have hfail : ∀ rs : List (String × Option OsError),
      (rs.filterMap failureEntry).length > 0 ↔ ∃ r ∈ rs, r.2 ≠ none := by
    intro rs
    induction rs with
    | nil => simp
    | cons r rs ih =>
      rcases r with ⟨f, _ | err⟩
      · simpa [failureEntry, List.filterMap_cons] using ih
      · simp [failureEntry, List.filterMap_cons]
  have hret : (cleanupBoxDirectory sys cfg st).1 =
      if ((removeResults sys (markObsolete st.processedFiles files []) st.world).filterMap
          failureEntry).length > 0 then
        some (", ".intercalate
          ((removeResults sys (markObsolete st.processedFiles files []) st.world).filterMap
            failureEntry))
      else none := by
    unfold cleanupBoxDirectory
    simp only [hglob]
    cases files with
    | nil => simp [markObsolete, removeResults]
    | cons f fs =>
      simp only [List.isEmpty_cons, Bool.false_eq_true, if_false]
      have he := removeObsolete_errorStack sys (markObsolete st.processedFiles (f :: fs) [])
        st.world (st.trace ++ [Event.glob (globPattern cfg)]) []
      rw [List.nil_append] at he
      rw [← he]
      split <;> rfl
  refine ⟨cleanup_trace sys cfg st files hglob, removeResults_fst _ _ _, ?_, ?_⟩
  · rw [hret, ← hfail]
    by_cases hlen : ((removeResults sys (markObsolete st.processedFiles files [])
        st.world).filterMap failureEntry).length > 0
    · simp [hlen]
    · simp [hlen]
  · intro h
    rw [hret, if_pos ((hfail _).2 h)]

/-- Witness for C6: three obsolete files, the first is removed, the removal
of the other two is refused; all three are attempted and the error names the
two refused ones. -/
theorem cleanup_aggregates_failures_witness :
    (simSys ⟨[]⟩).Glob lockedWorld (globPattern exFlags) =
      .ok ["d:\\localrepo\\7", "d:\\localrepo\\8", "d:\\localrepo\\9"] ∧
    (cleanupBoxDirectory (simSys ⟨[]⟩) exFlags ⟨lockedWorld, [], []⟩).2.trace =
      [Event.glob "d:\\localrepo\\*", Event.remove "d:\\localrepo\\7",
        Event.remove "d:\\localrepo\\8", Event.remove "d:\\localrepo\\9"] ∧
    (cleanupBoxDirectory (simSys ⟨[]⟩) exFlags ⟨lockedWorld, [], []⟩).1 =
      some ("d:\\localrepo\\8: remove d:\\localrepo\\8: Access is denied., " ++
        "d:\\localrepo\\9: remove d:\\localrepo\\9: Access is denied.") :=
  ⟨by rfl,
   (cleanup_aggregates_failures (simSys ⟨[]⟩) exFlags ⟨lockedWorld, [], []⟩
      ["d:\\localrepo\\7", "d:\\localrepo\\8", "d:\\localrepo\\9"] (by rfl)).1.trans
      (by decide),
   by decide⟩

/-- C2. Running `downloadBox` once per descriptor from an empty
`processedFiles` leaves `processedFiles` equal to the list of the boxes'
local file names, one per descriptor, so with as many entries as the catalog
has descriptors, whatever hashing and transfer return.  Each call starts by
appending its file name, before its first `validateBox` call, and appends
nothing else; neither `downloadBox` nor `cleanupBoxDirectory` removes an
entry. -/
theorem processedFiles_one_entry_per_descriptor {σ : Type} (sys : Sys σ) (cfg : Flags)
    (boxes : List BoxInfo) (w : σ) (tr : List Event) :
    (downloadAll sys cfg boxes ⟨w, [], tr⟩).processedFiles = boxes.map (boxFilename sys cfg) ∧
    (downloadAll sys cfg boxes ⟨w, [], tr⟩).processedFiles.length = boxes.length ∧
    (∀ (b : BoxInfo) (st : St σ),
      (downloadBox sys cfg b st).2.processedFiles =
        st.processedFiles ++ [boxFilename sys cfg b] ∧
      ∃ rest, (downloadBox sys cfg b st).2.trace =
          st.trace ++ Event.appendProcessed (boxFilename sys cfg b) ::
            Event.validateBox (boxFilename sys cfg b) :: rest ∧
        ∀ e ∈ rest, e.isAppend = false) ∧
    (∀ (bs : List BoxInfo) (st : St σ),
      (downloadAll sys cfg bs st).processedFiles =
        st.processedFiles ++ bs.map (boxFilename sys cfg)) ∧
    (∀ st : St σ, (cleanupBoxDirectory sys cfg st).2.processedFiles = st.processedFiles) := by
  have h1 : (downloadAll sys cfg boxes ⟨w, [], tr⟩).processedFiles =
      boxes.map (boxFilename sys cfg) := by
    rw [downloadAll_processedFiles]
    rfl
  refine ⟨h1, ?_, ?_, ?_, ?_⟩
  · rw [h1, List.length_map]
  · intro b st
    exact ⟨downloadBox_processedFiles sys cfg b st, downloadBox_trace sys cfg b st⟩
  · intro bs st
    exact downloadAll_processedFiles sys cfg bs st
  · intro st
    exact cleanup_processedFiles sys cfg st

/-- C3. When `downloadBox` returns `nil`, hashing the local file of the box
in the world it leaves behind succeeds (so the file can be opened, it exists)
and yields exactly the expected checksum.  Read contrapositively: when the
file is absent or hashes to something else after the call, `downloadBox`
returned a non-nil error. -/
theorem downloadBox_ok_file_valid {σ : Type} (sys : Sys σ) (cfg : Flags) (boxinfo : BoxInfo)
    (st : St σ) (hok : (downloadBox sys cfg boxinfo st).1 = none) :
    CalculateSha1 sys (downloadBox sys cfg boxinfo st).2.world (boxFilename sys cfg boxinfo) =
      (boxinfo.Checksum, none) ∧
    ∃ fd bytes,
      sys.Open (downloadBox sys cfg boxinfo st).2.world (boxFilename sys cfg boxinfo) = .ok fd ∧
      sys.CopySha1 (downloadBox sys cfg boxinfo st).2.world fd = .ok bytes ∧
      hexEncodeToString bytes = boxinfo.Checksum := by
  have hvalid : CalculateSha1 sys (downloadBox sys cfg boxinfo st).2.world
      (boxFilename sys cfg boxinfo) = (boxinfo.Checksum, none) := by
    rcases downloadBox_none_cases sys cfg boxinfo st hok with ⟨hv, hw⟩ | ⟨w2, _, _, hv2, hw⟩
    · rw [hw]
      exact (validateBox_true_iff sys st.world boxinfo _).1 hv
    · rw [hw]
      exact (validateBox_true_iff sys w2 boxinfo _).1 hv2
  refine ⟨hvalid, ?_⟩
  rcases calculateSha1_cases sys (downloadBox sys cfg boxinfo st).2.world
      (boxFilename sys cfg boxinfo) with ⟨err, he⟩ | ⟨fd, bytes, hO, hC, hb⟩
  · rw [he] at hvalid
    exact absurd (congrArg Prod.snd hvalid) (by simp)
  · rw [hb] at hvalid
    exact ⟨fd, bytes, hO, hC, congrArg Prod.fst hvalid⟩

/-- Witness for C3: empty directory, the transfer delivers the content with
the expected digest; `downloadBox` returns `nil` and the file is valid. -/
theorem downloadBox_ok_file_valid_witness :
    (downloadBox (simSys ⟨[lowerBox]⟩) exFlags lowerBox ⟨emptyDirWorld, [], []⟩).1 = none ∧
    CalculateSha1 (simSys ⟨[lowerBox]⟩)
        (downloadBox (simSys ⟨[lowerBox]⟩) exFlags lowerBox ⟨emptyDirWorld, [], []⟩).2.world
        (boxFilename (simSys ⟨[lowerBox]⟩) exFlags lowerBox) =
      (lowerBox.Checksum, none) :=
  ⟨by decide,
   (downloadBox_ok_file_valid (simSys ⟨[lowerBox]⟩) exFlags lowerBox ⟨emptyDirWorld, [], []⟩
      (by decide)).1⟩

/-- C5. Let the first validation give `(false, nil)` (so a transfer is
started) and let the transfer complete without error, leaving world `w2`.
If the validation of the downloaded file gives `(false, nil)`, `downloadBox`
returns a non-nil error and its last action is `os.Remove` on the local file
of the box.  If it gives `(true, nil)`, `downloadBox` returns `nil`, makes no
`os.Remove` call and leaves the world as the transfer left it. -/
theorem downloadBox_revalidates_after_transfer {σ : Type} (sys : Sys σ) (cfg : Flags)
    (boxinfo : BoxInfo) (st : St σ) (w2 : σ)
    (hv : validateBox sys st.world boxinfo (boxFilename sys cfg boxinfo) = (false, none))
    (hg : sys.GetAsync st.world (boxFilename sys cfg boxinfo) boxinfo.Url =
      (w2, .complete none)) :
    (validateBox sys w2 boxinfo (boxFilename sys cfg boxinfo) = (false, none) →
      (downloadBox sys cfg boxinfo st).1 ≠ none ∧
      (downloadBox sys cfg boxinfo st).2.world =
        (sys.Remove w2 (boxFilename sys cfg boxinfo)).1 ∧
      (downloadBox sys cfg boxinfo st).2.trace =
        st.trace ++ [Event.appendProcessed (boxFilename sys cfg boxinfo),
          Event.validateBox (boxFilename sys cfg boxinfo),
          Event.getAsync (boxFilename sys cfg boxinfo) boxinfo.Url,
          Event.validateBox (boxFilename sys cfg boxinfo),
          Event.remove (boxFilename sys cfg boxinfo)]) ∧
    (validateBox sys w2 boxinfo (boxFilename sys cfg boxinfo) = (true, none) →
      (downloadBox sys cfg boxinfo st).1 = none ∧
      (downloadBox sys cfg boxinfo st).2.world = w2 ∧
      (downloadBox sys cfg boxinfo st).2.trace =
        st.trace ++ [Event.appendProcessed (boxFilename sys cfg boxinfo),
          Event.validateBox (boxFilename sys cfg boxinfo),
          Event.getAsync (boxFilename sys cfg boxinfo) boxinfo.Url,
          Event.validateBox (boxFilename sys cfg boxinfo)]) := by
  constructor
  · intro hv2
    rw [downloadBox_mismatch sys cfg boxinfo st w2 hv hg hv2]
    simp [upToDateEvents]
  · intro hv2
    rw [downloadBox_downloaded sys cfg boxinfo st w2 hv hg hv2]
    simp [upToDateEvents]

/-- Witness for C5: the remote side serves content with a different digest;
`downloadBox` fails and the downloaded file is gone afterwards. -/
theorem downloadBox_revalidates_after_transfer_witness :
    validateBox (simSys ⟨[lowerBox]⟩)
        (simGetAsync corruptRemoteWorld "d:\\localrepo\\1" "http://x/1.box").1 lowerBox
        "d:\\localrepo\\1" = (false, none) ∧
    (downloadBox (simSys ⟨[lowerBox]⟩) exFlags lowerBox ⟨corruptRemoteWorld, [], []⟩).1 ≠ none ∧
    (downloadBox (simSys ⟨[lowerBox]⟩) exFlags lowerBox
        ⟨corruptRemoteWorld, [], []⟩).2.world.files = [] :=
  ⟨by decide,
   ((downloadBox_revalidates_after_transfer (simSys ⟨[lowerBox]⟩) exFlags lowerBox
      ⟨corruptRemoteWorld, [], []⟩
      (simGetAsync corruptRemoteWorld "d:\\localrepo\\1" "http://x/1.box").1
      (by decide) (by decide)).1 (by decide)).1,
   by decide⟩

/-- C8. When the local file of every descriptor of the catalog already hashes
to its expected checksum, every `downloadBox` call returns `nil` having only
appended its file name and validated: the run over the catalog consists of
those two events per descriptor, contains no transfer and no deletion, and
leaves the outside world unchanged. -/
theorem sync_idempotent {σ : Type} (sys : Sys σ) (cfg : Flags) (boxes : List BoxInfo) (w : σ)
    (hvalid : ∀ b ∈ boxes, CalculateSha1 sys w (boxFilename sys cfg b) = (b.Checksum, none)) :
    (∀ b ∈ boxes, ∀ (processed : List String) (tr : List Event),
      downloadBox sys cfg b ⟨w, processed, tr⟩ =
        (none, ⟨w, processed ++ [boxFilename sys cfg b], tr ++ upToDateEvents sys cfg b⟩)) ∧
    (∀ (processed : List String) (tr : List Event),
      (downloadAll sys cfg boxes ⟨w, processed, tr⟩).world = w ∧
      (downloadAll sys cfg boxes ⟨w, processed, tr⟩).trace =
        tr ++ boxes.flatMap (upToDateEvents sys cfg)) ∧
    (∀ e ∈ boxes.flatMap (upToDateEvents sys cfg), e.isTransferOrRemove = false) := by
  have hone : ∀ b ∈ boxes, ∀ (processed : List String) (tr : List Event),
      downloadBox sys cfg b ⟨w, processed, tr⟩ =
        (none, ⟨w, processed ++ [boxFilename sys cfg b], tr ++ upToDateEvents sys cfg b⟩) := by
    intro b hb processed tr
    exact downloadBox_upToDate sys cfg b ⟨w, processed, tr⟩
      ((validateBox_true_iff sys w b _).2 (hvalid b hb))
  refine ⟨hone, ?_, ?_⟩
  · clear hvalid
    induction boxes with
    | nil =>
      intro processed tr
      simp [downloadAll]
    | cons b bs ih =>
      intro processed tr
      have hb := hone b (List.mem_cons_self b bs) processed tr
      have ih2 := ih (fun c hc => hone c (List.mem_cons_of_mem b hc))
        (processed ++ [boxFilename sys cfg b]) (tr ++ upToDateEvents sys cfg b)
      simp only [downloadAll, hb, List.flatMap_cons]
      exact ⟨ih2.1, by rw [ih2.2, List.append_assoc]⟩
  · intro e he
    rcases List.mem_flatMap.1 he with ⟨b, _, hb⟩
    simp only [upToDateEvents, List.mem_cons, List.mem_singleton, List.not_mem_nil,
      or_false] at hb
    rcases hb with rfl | rfl <;> rfl

/-- Witness for C8: the directory already holds the valid file of the only
box of the catalog; the run makes no transfer. -/
theorem sync_idempotent_witness :
    (downloadAll (simSys ⟨[lowerBox]⟩) exFlags [lowerBox] ⟨syncedWorld, [], []⟩).world =
      syncedWorld ∧
    (downloadAll (simSys ⟨[lowerBox]⟩) exFlags [lowerBox] ⟨syncedWorld, [], []⟩).trace =
      [] ++ [lowerBox].flatMap (upToDateEvents (simSys ⟨[lowerBox]⟩) exFlags) :=
  (sync_idempotent (simSys ⟨[lowerBox]⟩) exFlags [lowerBox] syncedWorld
    (by decide)).2.1 [] []

/-- C9 (as stated, refuted). The target directory does not exist and the
inventory request is answered with status 404: `downloadIndexFile` fails and
`main` exits with 1, but the outside world is not the one before the run,
the target directory has been created by the `os.MkdirAll` call that precedes
the fetch. -/
theorem main_fetch_failure_creates_directory :
    (downloadIndexFile (simSys ⟨[]⟩) exFlags freshWorld).2 ≠ none ∧
    (main (simSys ⟨[]⟩) exFlags freshWorld).1 = 1 ∧
    exFlags.localBoxFilepath ∉ freshWorld.dirs ∧
    exFlags.localBoxFilepath ∈ (main (simSys ⟨[]⟩) exFlags freshWorld).2.world.dirs ∧
    (main (simSys ⟨[]⟩) exFlags freshWorld).2.world ≠ freshWorld := by
  decide

/-- C9 (amended). Let `os.MkdirAll` of the target directory succeed, leaving
world `w1`.  Every response with a status code of at least 400 makes
`downloadIndexFile` return a non-nil error; and whenever
`downloadIndexFile` returns a non-nil error, `main` exits with code 1 having
made exactly two calls, `os.MkdirAll` and the inventory request: no
`downloadBox` ran (`processedFiles` is empty), no transfer, no deletion and no
directory listing happened, and the outside world is the one `os.MkdirAll`
left. -/
theorem main_aborts_on_fetch_failure {σ : Type} (sys : Sys σ) (cfg : Flags) (w w1 : σ)
    (hmk : sys.MkdirAll w cfg.localBoxFilepath = (w1, none)) :
    (∀ resp, sys.HttpGet w1 cfg.vsatlasMasterUri = .ok resp → 400 ≤ resp.StatusCode →
      (downloadIndexFile sys cfg w1).2 ≠ none) ∧
    ((downloadIndexFile sys cfg w1).2 ≠ none →
      main sys cfg w =
        (1, ⟨w1, [], [Event.mkdirAll cfg.localBoxFilepath,
          Event.httpGet cfg.vsatlasMasterUri]⟩)) := by
  constructor
  · intro resp hget hstatus
    have hge : resp.StatusCode ≥ 400 := hstatus
    simp only [downloadIndexFile, hget, hge, if_true]
    simp
  · intro hfail
    rcases hd : downloadIndexFile sys cfg w1 with ⟨boxes, _ | err⟩
    · rw [hd] at hfail
      exact absurd rfl hfail
    · simp only [main, hmk, hd]

/-- Witness for C9 (amended): status 404 on a world without the target
directory; `main` exits with 1 after `os.MkdirAll` and the request. -/
theorem main_aborts_on_fetch_failure_witness :
    (simSys ⟨[]⟩).MkdirAll freshWorld exFlags.localBoxFilepath =
      (⟨[exDir], [], [], 404, ""⟩, none) ∧
    (downloadIndexFile (simSys ⟨[]⟩) exFlags ⟨[exDir], [], [], 404, ""⟩).2 ≠ none ∧
    main (simSys ⟨[]⟩) exFlags freshWorld =
      (1, ⟨⟨[exDir], [], [], 404, ""⟩, [], [Event.mkdirAll exFlags.localBoxFilepath,
        Event.httpGet exFlags.vsatlasMasterUri]⟩) :=
  ⟨by decide, by decide,
   (main_aborts_on_fetch_failure (simSys ⟨[]⟩) exFlags freshWorld ⟨[exDir], [], [], 404, ""⟩
      (by decide)).2 (by decide)⟩

/-- C10. In every state reachable from the entry of the dispatch loop, for
every capacity `W` of `sem` and every number `n` of descriptors: the number
of units started and not yet finished is at most `W`; when the final loop
has sent its `W` tokens no unit is running; and `cleanupBoxDirectory` is
started only when no unit is running and all `n` units have finished. -/
theorem dispatch_bounded_and_drained (W n : Nat) (acts : List SemAction) (s : SemState)
    (hrun : semRun W (semInit n) acts = some s) :
    s.running ≤ W ∧
    (s.pending = 0 ∧ s.starting = false ∧ W ≤ s.barrier → s.running = 0) ∧
    (s.cleanup = true → s.running = 0 ∧ s.finished = n) := by
  obtain ⟨h1, h2, h3, h4, h5⟩ := semInv_run W n acts (semInit n) s (semInv_init W n) hrun
  refine ⟨by omega, ?_, ?_⟩
  · rintro ⟨_, _, hb⟩
    omega
  · intro hc
    obtain ⟨hp, _, hb⟩ := h5 hc
    constructor <;> omega

/-- Witness for C10: three descriptors under capacity 2, run to the start of
`cleanupBoxDirectory`. -/
theorem dispatch_bounded_and_drained_witness :
    semRun 2 (semInit 3)
        [.send, .spawn, .send, .spawn, .finish, .send, .spawn, .finish, .finish,
          .barrierSend, .barrierSend, .startCleanup] =
      some ⟨0, false, 2, 0, 3, 2, true⟩ ∧
    (0 : Nat) ≤ 2 ∧ ((true = true) → (0 : Nat) = 0 ∧ (3 : Nat) = 3) :=
  ⟨by decide,
   (dispatch_bounded_and_drained 2 3
      [.send, .spawn, .send, .spawn, .finish, .send, .spawn, .finish, .finish,
        .barrierSend, .barrierSend, .startCleanup] ⟨0, false, 2, 0, 3, 2, true⟩ (by decide)).1,
   (dispatch_bounded_and_drained 2 3
      [.send, .spawn, .send, .spawn, .finish, .send, .spawn, .finish, .finish,
        .barrierSend, .barrierSend, .startCleanup] ⟨0, false, 2, 0, 3, 2, true⟩ (by decide)).2.2⟩

end VsatlasSync
